import Mathlib

/-!
Shallow embedding of the mempot in-memory cache (mempot.go, the generic
variant with the never-expire sentinel).

Time instants and durations are modelled as integers counting nanoseconds,
matching Go's time.Time / time.Duration; `unix` is time.Time.Unix(), the
floor of the nanosecond count divided by 10^9 (Go stores sec plus a
nanosecond field in [0, 10^9), so Unix() is the floor also before the
epoch).  The Go map is modelled as an association list with unique keys;
insertion replaces any existing binding.  Each exported method takes the
current time as an explicit `now` parameter standing for the time.Now()
calls it performs.  The cleanup goroutine's per-wake body is modelled as
`cleanupSweep`; the `cleanupStarted` flag records whether NewCache spawned
the goroutine.  The context used only for cancellation is not part of the
state.
-/

namespace Mempot

/-- Nanoseconds in one second, the unit conversion used by time.Time.Unix(). -/
def nsPerSec : Int := 1000000000

/-- Unix epoch seconds of an instant given in nanoseconds: time.Time.Unix(). -/
def unix (t : Int) : Int := t / nsPerSec

/-- Item is a unit of typed data which can be cached and has an expiration as Unix epoch. -/
structure Item (T : Type) where
  Data : T
  TTL : Int
deriving DecidableEq

/-- Expired returns true if the data of the Item has expired (mempot.go lines 203-209):
a TTL of 0 is the never-expires sentinel, otherwise compare time.Now().Unix() > i.TTL. -/
def Item.Expired {T : Type} (i : Item T) (now : Int) : Bool :=
  if i.TTL = 0 then false else decide (unix now > i.TTL)

/-- newItem (mempot.go lines 211-217): a zero ttl stores the sentinel 0,
otherwise the expiration is time.Now().Add(ttl).Unix(). -/
def newItem {T : Type} (data : T) (ttl : Int) (now : Int) : Item T :=
  if ttl = 0 then ⟨data, 0⟩ else ⟨data, unix (now + ttl)⟩

/-- Config allows to alter the configuration of a Cache. -/
structure Config where
  DefaultTTL : Int
  CleanupInterval : Int
deriving DecidableEq

/-- DefaultConfig: DefaultTTL 15 minutes, CleanupInterval 5 minutes, in nanoseconds. -/
def DefaultConfig : Config := ⟨900000000000, 300000000000⟩

/-- Cache holds the data you want to cache in memory.  `cleanupStarted` records
whether NewCache executed `go c.cleanup()`. -/
structure Cache (K T : Type) where
  data : List (K × Item T)
  cfg : Config
  cleanupStarted : Bool

/-- Remove every binding of key `k` (the Go map holds at most one). -/
def eraseKey {K T : Type} [DecidableEq K] (l : List (K × Item T)) (k : K) :
    List (K × Item T) :=
  l.filter (fun p => decide (p.1 ≠ k))

/-- Go map lookup `c.data[key]`, as an Option. -/
def lookup {K T : Type} [DecidableEq K] (l : List (K × Item T)) (k : K) :
    Option (Item T) :=
  (l.find? (fun p => decide (p.1 = k))).map Prod.snd

/-- Go map assignment `c.data[key] = it`: replace any existing binding. -/
def mapInsert {K T : Type} [DecidableEq K] (l : List (K × Item T)) (k : K)
    (it : Item T) : List (K × Item T) :=
  (k, it) :: eraseKey l k

/-- NewCache (mempot.go lines 221-241): start from DefaultConfig, override each
field only when the supplied value is positive, then spawn the cleanup
goroutine when the resulting CleanupInterval is positive. -/
def NewCache (K T : Type) (cfg : Config) : Cache K T :=
  let cfg1 := if cfg.DefaultTTL > 0 then
    { DefaultConfig with DefaultTTL := cfg.DefaultTTL } else DefaultConfig
  let cfg2 := if cfg.CleanupInterval > 0 then
    { cfg1 with CleanupInterval := cfg.CleanupInterval } else cfg1
  { data := [], cfg := cfg2, cleanupStarted := decide (cfg2.CleanupInterval > 0) }

/-- SetWithTTL (mempot.go lines 249-253): store newItem(data, ttl) under key. -/
def SetWithTTL {K T : Type} [DecidableEq K] (c : Cache K T) (k : K) (data : T)
    (ttl : Int) (now : Int) : Cache K T :=
  { c with data := mapInsert c.data k (newItem data ttl now) }

/-- Set (mempot.go lines 244-246): SetWithTTL with the configured DefaultTTL. -/
def Set {K T : Type} [DecidableEq K] (c : Cache K T) (k : K) (v : T)
    (now : Int) : Cache K T :=
  SetWithTTL c k v c.cfg.DefaultTTL now

/-- Get (mempot.go lines 257-267).  The map read yields the zero Item and false
when the key is absent; an expired item yields the zero Item and false.  The
second component is the cache state after the call (the method only reads). -/
def Get {K T : Type} [DecidableEq K] [Inhabited T] (c : Cache K T) (k : K)
    (now : Int) : (Item T × Bool) × Cache K T :=
  let fetch : Item T × Bool :=
    match lookup c.data k with
    | some it => (it, true)
    | none => ((⟨default, 0⟩ : Item T), false)
  if fetch.1.Expired now then (((⟨default, 0⟩ : Item T), false), c)
  else (fetch, c)

/-- QueryFunc: the compute capability `(key) -> (value, error)`. -/
def QueryFunc (K T : Type) : Type := K → Except String T

/-- RememberWithTTL (mempot.go lines 280-294): on hit return the cached Item;
on miss run the query, on failure wrap the error and store nothing, on
success store with the explicit ttl and return newItem(data, ttl). -/
def RememberWithTTL {K T : Type} [DecidableEq K] [Inhabited T] (c : Cache K T)
    (k : K) (query : QueryFunc K T) (ttl : Int) (now : Int) :
    Cache K T × Except String (Item T) :=
  let g := Get c k now
  if g.1.2 then (g.2, Except.ok g.1.1)
  else
    match query k with
    | Except.error e => (g.2, Except.error ("failed to query data: " ++ e))
    | Except.ok data => (SetWithTTL g.2 k data ttl now, Except.ok (newItem data ttl now))

/-- Remember (mempot.go lines 274-276): RememberWithTTL with the configured DefaultTTL. -/
def Remember {K T : Type} [DecidableEq K] [Inhabited T] (c : Cache K T) (k : K)
    (query : QueryFunc K T) (now : Int) : Cache K T × Except String (Item T) :=
  RememberWithTTL c k query c.cfg.DefaultTTL now

/-- One wake of the cleanup goroutine (mempot.go lines 318-333): a read pass
collecting the keys of entries expired at the wake time, then a write pass
deleting exactly the collected keys. -/
def cleanupSweep {K T : Type} [DecidableEq K] (c : Cache K T) (now : Int) :
    Cache K T :=
  let toBeDeleted := (c.data.filter (fun p => p.2.Expired now)).map Prod.fst
  { c with data := toBeDeleted.foldl (fun l k => eraseKey l k) c.data }

/-- Unix conversion is monotone. -/
theorem unix_mono {a b : Int} (h : a ≤ b) : unix a ≤ unix b := by
  unfold unix
  exact Int.ediv_le_ediv (by decide) h

/-- Moving one second earlier moves the Unix second down by exactly one. -/
theorem unix_sub_sec (a : Int) : unix (a - nsPerSec) = unix a - 1 := by
  unfold unix
  have h : a - nsPerSec = a + (-1) * nsPerSec := by ring
  rw [h, Int.add_mul_ediv_right a (-1) (by decide)]
  ring

/-- Lookup on a cons cell. -/
theorem lookup_cons {K T : Type} [DecidableEq K] (p : K × Item T)
    (l : List (K × Item T)) (k : K) :
    lookup (p :: l) k = if p.1 = k then some p.2 else lookup l k := by
  by_cases h : p.1 = k <;> simp [lookup, List.find?, h]

/-- A fresh insertion is found by lookup. -/
theorem lookup_mapInsert_self {K T : Type} [DecidableEq K]
    (l : List (K × Item T)) (k : K) (it : Item T) :
    lookup (mapInsert l k it) k = some it := by
  simp [mapInsert, lookup_cons]

/-- Erasing one key leaves lookups of other keys unchanged. -/
theorem lookup_eraseKey_ne {K T : Type} [DecidableEq K]
    (l : List (K × Item T)) (k k' : K) (h : k' ≠ k) :
    lookup (eraseKey l k) k' = lookup l k' := by
  induction l with
  | nil => rfl
  | cons p l ih =>
    by_cases hp : p.1 = k
    · rw [eraseKey, List.filter_cons, if_neg (by simp [hp])]
      rw [← eraseKey, ih, lookup_cons,
        if_neg (by rw [hp]; exact fun hh => h hh.symm)]
    · rw [eraseKey, List.filter_cons, if_pos (by simp [hp])]
      rw [← eraseKey, lookup_cons, lookup_cons, ih]

/-- Erasing a list of keys not containing `k` leaves `lookup k` unchanged. -/
theorem lookup_foldl_eraseKey {K T : Type} [DecidableEq K] (td : List K)
    (l : List (K × Item T)) (k : K) (h : k ∉ td) :
    lookup (td.foldl (fun l t => eraseKey l t) l) k = lookup l k := by
  induction td generalizing l with
  | nil => rfl
  | cons t ts ih =>
    simp only [List.mem_cons, not_or] at h
    rw [List.foldl_cons, ih _ h.2, lookup_eraseKey_ne _ _ _ h.1]

/-- Erasing keys only removes bindings, never adds them. -/
theorem mem_foldl_eraseKey {K T : Type} [DecidableEq K] (td : List K)
    (l : List (K × Item T)) (p : K × Item T)
    (h : p ∈ td.foldl (fun l t => eraseKey l t) l) : p ∈ l := by
  induction td generalizing l with
  | nil => exact h
  | cons t ts ih =>
    rw [List.foldl_cons] at h
    exact List.mem_of_mem_filter (ih _ h)

/-- The erase pass over a key list is a filter on key membership. -/
theorem foldl_eraseKey_eq_filter {K T : Type} [DecidableEq K] (td : List K)
    (l : List (K × Item T)) :
    td.foldl (fun l t => eraseKey l t) l
      = l.filter (fun p => decide (p.1 ∉ td)) := by
  induction td generalizing l with
  | nil => simp
  | cons t ts ih =>
    rw [List.foldl_cons, ih, eraseKey, List.filter_filter]
    apply List.filter_congr
    intro p _
    by_cases h1 : p.1 = t <;> by_cases h2 : p.1 ∈ ts <;>
      simp [h1, h2, List.mem_cons]

/-- Get leaves the cache state unchanged (its body only reads the map). -/
theorem Get_state_eq {K T : Type} [DecidableEq K] [Inhabited T] (c : Cache K T)
    (k : K) (now : Int) : (Get c k now).2 = c := by
  simp only [Get]
  split <;> rfl

/-- Claim C1: the spec says a non-positive CleanupInterval disables the
background reclamation task.  The code violates this: NewCache replaces a
non-positive CleanupInterval with the 5-minute default and then always finds
a positive interval, so the cleanup goroutine is started for every
configuration — in particular for CleanupInterval 0, where it runs with the
5-minute default cadence. -/
theorem mempot_C1 :
    ((NewCache String String ⟨900000000000, 0⟩).cleanupStarted = true ∧
      (NewCache String String ⟨900000000000, 0⟩).cfg.CleanupInterval
        = 300000000000) ∧
    ∀ (K T : Type) (cfg : Config), (NewCache K T cfg).cleanupStarted = true := by
  refine ⟨by decide, ?_⟩
  intro K T cfg
  simp only [NewCache]
  by_cases h1 : cfg.DefaultTTL > 0 <;> by_cases h2 : cfg.CleanupInterval > 0 <;>
    simp [h1, h2, DefaultConfig]

/-- Claim C2: the spec says a default TTL of 0 yields a never-expire default.
The code violates this: NewCache replaces a zero DefaultTTL with the
15-minute default, so Set stores an entry expiring 900 seconds later (Unix
second 900 when set at time 0), and Get at 901 seconds reports not-found. -/
theorem mempot_C2 :
    lookup (Set (NewCache String String ⟨0, 0⟩) "k" "v" 0).data "k"
        = some (⟨"v", 900⟩ : Item String) ∧
    (Get (Set (NewCache String String ⟨0, 0⟩) "k" "v" 0) "k"
        901000000000).1.2 = false := by
  decide

/-- Claim C5: Expired returns false on the never-expires sentinel 0, and
otherwise returns true exactly when the current Unix second is strictly
greater than the stored expiration second. -/
theorem mempot_C5 {T : Type} (i : Item T) (now : Int) :
    i.Expired now = true ↔ (i.TTL ≠ 0 ∧ unix now > i.TTL) := by
  unfold Item.Expired
  by_cases h : i.TTL = 0 <;> simp [h]

/-- Claim C8: Get never mutates the store: the cache state after a Get, and
in particular its entry mapping, equals the state before, for every key and
time — including when the key holds an expired entry. -/
theorem mempot_C8 {K T : Type} [DecidableEq K] [Inhabited T] (c : Cache K T)
    (k : K) (now : Int) :
    (Get c k now).2 = c ∧ ((Get c k now).2).data = c.data := by
  simp only [Get]
  constructor <;> (split <;> rfl)

/-- Claim C10 counterexample: at one second past the epoch, setWithTTL with
ttl minus one second computes expiration Unix second 0, the never-expires
sentinel, so the entry is stored as immortal and the immediately following
get returns it as found — refuting the claim that get then returns
not-found. -/
theorem mempot_C10_cex :
    lookup (SetWithTTL (NewCache String String DefaultConfig) "k" "v"
        (-1000000000) 1000000000).data "k" = some (⟨"v", 0⟩ : Item String) ∧
    (Get (SetWithTTL (NewCache String String DefaultConfig) "k" "v"
        (-1000000000) 1000000000) "k" 1000000000).1
      = ((⟨"v", 0⟩ : Item String), true) := by
  decide

/-- Claim C3: on a miss with a succeeding query, RememberWithTTL stores the
computed value under the key with the explicit ttl, and returns exactly the
Item it stored — newItem(value, ttl) built at the same instant, hence with
the same expiration timestamp. -/
theorem mempot_C3 {K T : Type} [DecidableEq K] [Inhabited T] (c : Cache K T)
    (k : K) (query : QueryFunc K T) (ttl now : Int) (v : T)
    (hmiss : (Get c k now).1.2 = false) (hq : query k = Except.ok v) :
    (RememberWithTTL c k query ttl now).2 = Except.ok (newItem v ttl now) ∧
    lookup (RememberWithTTL c k query ttl now).1.data k
      = some (newItem v ttl now) := by
  simp [RememberWithTTL, hmiss, hq, SetWithTTL, lookup_mapInsert_self]

/-- Witness for claim C3 at a concrete miss. -/
theorem mempot_C3_witness :
    ((Get (NewCache String String DefaultConfig) "a" 0).1.2 = false ∧
      (fun _ : String => (Except.ok "b" : Except String String)) "a"
        = Except.ok "b") ∧
    ((RememberWithTTL (NewCache String String DefaultConfig) "a"
        (fun _ => Except.ok "b") 5000000000 0).2
      = Except.ok (newItem "b" 5000000000 0) ∧
    lookup (RememberWithTTL (NewCache String String DefaultConfig) "a"
        (fun _ => Except.ok "b") 5000000000 0).1.data "a"
      = some (newItem "b" 5000000000 0)) :=
  ⟨⟨by decide, rfl⟩,
    mempot_C3 (NewCache String String DefaultConfig) "a"
      (fun _ => Except.ok "b") 5000000000 0 "b" (by decide) rfl⟩

/-- Claim C6: on a miss with a failing query, Remember and RememberWithTTL
return the wrapped error, the cache state is returned unchanged, and a
subsequent Get still reports not-found. -/
theorem mempot_C6 {K T : Type} [DecidableEq K] [Inhabited T] (c : Cache K T)
    (k : K) (query : QueryFunc K T) (ttl now : Int) (e : String)
    (hmiss : (Get c k now).1.2 = false) (hq : query k = Except.error e) :
    RememberWithTTL c k query ttl now
        = (c, Except.error ("failed to query data: " ++ e)) ∧
    Remember c k query now
        = (c, Except.error ("failed to query data: " ++ e)) ∧
    (Get (RememberWithTTL c k query ttl now).1 k now).1.2 = false := by
  have key : ∀ t : Int, RememberWithTTL c k query t now
      = (c, Except.error ("failed to query data: " ++ e)) := by
    intro t
    simp [RememberWithTTL, hmiss, hq, Get_state_eq]
  refine ⟨key ttl, ?_, ?_⟩
  · rw [Remember]
    exact key c.cfg.DefaultTTL
  · rw [key ttl]
    exact hmiss

/-- Witness for claim C6 at a concrete failing query. -/
theorem mempot_C6_witness :
    ((Get (NewCache String String DefaultConfig) "a" 0).1.2 = false ∧
      (fun _ : String => (Except.error "boom" : Except String String)) "a"
        = Except.error "boom") ∧
    (RememberWithTTL (NewCache String String DefaultConfig) "a"
        (fun _ => Except.error "boom") 5000000000 0
      = (NewCache String String DefaultConfig,
          Except.error ("failed to query data: " ++ "boom")) ∧
    Remember (NewCache String String DefaultConfig) "a"
        (fun _ => Except.error "boom") 0
      = (NewCache String String DefaultConfig,
          Except.error ("failed to query data: " ++ "boom")) ∧
    (Get (RememberWithTTL (NewCache String String DefaultConfig) "a"
        (fun _ => Except.error "boom") 5000000000 0).1 "a" 0).1.2 = false) :=
  ⟨⟨by decide, rfl⟩,
    mempot_C6 (NewCache String String DefaultConfig) "a"
      (fun _ => Except.error "boom") 5000000000 0 "boom" (by decide) rfl⟩

/-- Claim C9: every constructed cache has a positive default TTL, and on any
cache with a positive default TTL, Set followed immediately by Get at the
same instant returns the stored value and true. -/
theorem mempot_C9 (K T : Type) [DecidableEq K] [Inhabited T] :
    (∀ cfg : Config, 0 < (NewCache K T cfg).cfg.DefaultTTL) ∧
    ∀ (c : Cache K T) (k : K) (v : T) (now : Int), 0 < c.cfg.DefaultTTL →
      (Get (Set c k v now) k now).1.1.Data = v ∧
      (Get (Set c k v now) k now).1.2 = true := by
  constructor
  · intro cfg
    simp only [NewCache]
    by_cases h1 : cfg.DefaultTTL > 0 <;> by_cases h2 : cfg.CleanupInterval > 0 <;>
      simp [h1, h2, DefaultConfig]
  · intro c k v now hd
    have hne : c.cfg.DefaultTTL ≠ 0 := by omega
    have hlk : lookup (Set c k v now).data k
        = some (newItem v c.cfg.DefaultTTL now) := by
      simp [Set, SetWithTTL, lookup_mapInsert_self]
    have hexp : (newItem v c.cfg.DefaultTTL now).Expired now = false := by
      unfold newItem
      rw [if_neg hne]
      unfold Item.Expired
      dsimp only
      by_cases h0 : unix (now + c.cfg.DefaultTTL) = 0
      · rw [if_pos h0]
      · rw [if_neg h0]
        simp only [decide_eq_false_iff_not, not_lt]
        exact unix_mono (by omega)
    have hget : (Get (Set c k v now) k now).1
        = (newItem v c.cfg.DefaultTTL now, true) := by
      simp only [Get]
      rw [hlk]
      simp [hexp]
    constructor
    · rw [hget]
      unfold newItem
      split <;> rfl
    · rw [hget]

/-- Witness for claim C9 at a concrete cache and key. -/
theorem mempot_C9_witness :
    0 < (NewCache String String DefaultConfig).cfg.DefaultTTL ∧
    ((Get (Set (NewCache String String DefaultConfig) "k" "v" 0) "k" 0).1.1.Data
        = "v" ∧
      (Get (Set (NewCache String String DefaultConfig) "k" "v" 0) "k" 0).1.2
        = true) :=
  ⟨(mempot_C9 String String).1 DefaultConfig,
    (mempot_C9 String String).2 (NewCache String String DefaultConfig)
      "k" "v" 0 (by decide)⟩

/-- Claim C10 as amended: for ttl at most minus one second, setWithTTL is
accepted and stores an entry whose expiration Unix second is strictly below
the current one, and the immediately following get reports not-found —
provided the computed expiration second is not exactly 0, the never-expires
sentinel (in that corner case the entry is stored as immortal instead). -/
theorem mempot_C10 {K T : Type} [DecidableEq K] [Inhabited T] (c : Cache K T)
    (k : K) (v : T) (ttl now : Int) (h1 : ttl ≤ -1000000000)
    (h2 : unix (now + ttl) ≠ 0) :
    lookup (SetWithTTL c k v ttl now).data k
        = some (⟨v, unix (now + ttl)⟩ : Item T) ∧
    unix (now + ttl) < unix now ∧
    (Get (SetWithTTL c k v ttl now) k now).1
      = ((⟨default, 0⟩ : Item T), false) := by
  have hns : nsPerSec = 1000000000 := rfl
  have httl : ttl ≠ 0 := by omega
  have hitem : newItem v ttl now = (⟨v, unix (now + ttl)⟩ : Item T) := by
    unfold newItem
    rw [if_neg httl]
  have hlk : lookup (SetWithTTL c k v ttl now).data k
      = some (⟨v, unix (now + ttl)⟩ : Item T) := by
    simp only [SetWithTTL]
    rw [hitem]
    exact lookup_mapInsert_self _ _ _
  have hlt : unix (now + ttl) < unix now := by
    have step : unix (now - nsPerSec) = unix now - 1 := unix_sub_sec now
    have hmono : unix (now + ttl) ≤ unix (now - nsPerSec) := unix_mono (by omega)
    omega
  have hexp : (⟨v, unix (now + ttl)⟩ : Item T).Expired now = true := by
    unfold Item.Expired
    dsimp only
    rw [if_neg h2]
    simp [hlt]
  refine ⟨hlk, hlt, ?_⟩
  simp only [Get]
  rw [hlk]
  simp [hexp]

/-- Witness for claim C10 as amended, one second before the epoch. -/
theorem mempot_C10_witness :
    ((-1000000000 : Int) ≤ -1000000000 ∧ unix ((0:Int) + -1000000000) ≠ 0) ∧
    (lookup (SetWithTTL (NewCache String String DefaultConfig) "k" "v"
        (-1000000000) 0).data "k"
      = some (⟨"v", unix ((0:Int) + -1000000000)⟩ : Item String) ∧
    unix ((0:Int) + -1000000000) < unix 0 ∧
    (Get (SetWithTTL (NewCache String String DefaultConfig) "k" "v"
        (-1000000000) 0) "k" 0).1 = ((⟨default, 0⟩ : Item String), false)) :=
  ⟨⟨by decide, by decide⟩,
    mempot_C10 (NewCache String String DefaultConfig) "k" "v"
      (-1000000000) 0 (by decide) (by decide)⟩

/-- Claim C7: one wake of the cleanup task removes exactly the keys collected
as expired at the scan time: with unique keys and no interleaved foreground
operation, the mapping afterwards is exactly the entries not expired at scan
time, and every non-expired entry is left untouched. -/
theorem mempot_C7 {K T : Type} [DecidableEq K] (c : Cache K T) (now : Int)
    (h : (c.data.map Prod.fst).Nodup) :
    (cleanupSweep c now).data = c.data.filter (fun p => !(p.2.Expired now)) ∧
    ∀ p ∈ c.data, p.2.Expired now = false → p ∈ (cleanupSweep c now).data := by
  have hmain : (cleanupSweep c now).data
      = c.data.filter (fun p => !(p.2.Expired now)) := by
    simp only [cleanupSweep]
    rw [foldl_eraseKey_eq_filter]
    apply List.filter_congr
    intro p hp
    by_cases he : p.2.Expired now = true
    · have hin : p.1 ∈ (c.data.filter (fun q => q.2.Expired now)).map Prod.fst :=
        List.mem_map_of_mem Prod.fst (List.mem_filter.mpr ⟨hp, he⟩)
      simp [hin, he]
    · have hnin : p.1 ∉ (c.data.filter (fun q => q.2.Expired now)).map Prod.fst := by
        intro hin
        rcases List.mem_map.mp hin with ⟨q, hq, hqk⟩
        have hqf := List.mem_filter.mp hq
        have hpq : q = p := List.inj_on_of_nodup_map h hqf.1 hp hqk
        rw [hpq] at hqf
        exact he hqf.2
      simp [hnin, he]
  refine ⟨hmain, ?_⟩
  intro p hp hpe
  rw [hmain]
  exact List.mem_filter.mpr ⟨hp, by rw [hpe]; rfl⟩

/-- Witness for claim C7: a two-entry cache where only the first entry is
expired at the wake time. -/
theorem mempot_C7_witness :
    (((⟨[("a", ⟨"x", 5⟩), ("b", ⟨"y", 0⟩)], DefaultConfig, true⟩ :
        Cache String String).data.map Prod.fst).Nodup) ∧
    ((cleanupSweep (⟨[("a", ⟨"x", 5⟩), ("b", ⟨"y", 0⟩)], DefaultConfig, true⟩ :
        Cache String String) 10000000000).data
      = (⟨[("a", ⟨"x", 5⟩), ("b", ⟨"y", 0⟩)], DefaultConfig, true⟩ :
        Cache String String).data.filter (fun p => !(p.2.Expired 10000000000)) ∧
    ∀ p ∈ (⟨[("a", ⟨"x", 5⟩), ("b", ⟨"y", 0⟩)], DefaultConfig, true⟩ :
        Cache String String).data, p.2.Expired 10000000000 = false →
      p ∈ (cleanupSweep (⟨[("a", ⟨"x", 5⟩), ("b", ⟨"y", 0⟩)], DefaultConfig,
        true⟩ : Cache String String) 10000000000).data) :=
  ⟨by decide,
    mempot_C7 (⟨[("a", ⟨"x", 5⟩), ("b", ⟨"y", 0⟩)], DefaultConfig, true⟩ :
      Cache String String) 10000000000 (by decide)⟩

/-- Claim C4: setWithTTL with ttl 0 stores the never-expires sentinel; the
entry survives any sequence of cleanup sweeps at any times and Get returns
it with true at every time. -/
theorem mempot_C4 {K T : Type} [DecidableEq K] [Inhabited T] (c : Cache K T)
    (k : K) (v : T) (now : Int) (ts : List Int) (now2 : Int) :
    (Get (ts.foldl (fun c t => cleanupSweep c t)
        (SetWithTTL c k v 0 now)) k now2).1 = ((⟨v, 0⟩ : Item T), true) := by
  have hexp0 : ∀ t : Int, (⟨v, (0:Int)⟩ : Item T).Expired t = false := by
    intro t
    simp [Item.Expired]
  have main : ∀ (us : List Int) (c' : Cache K T),
      lookup c'.data k = some ⟨v, 0⟩ →
      (∀ q ∈ c'.data, q.1 = k → q.2 = (⟨v, (0:Int)⟩ : Item T)) →
      lookup (us.foldl (fun c t => cleanupSweep c t) c').data k = some ⟨v, 0⟩ ∧
      ∀ q ∈ (us.foldl (fun c t => cleanupSweep c t) c').data, q.1 = k →
        q.2 = (⟨v, (0:Int)⟩ : Item T) := by
    intro us
    induction us with
    | nil => exact fun c' h1 h2 => ⟨h1, h2⟩
    | cons t us ih =>
      intro c' h1 h2
      rw [List.foldl_cons]
      have hknot : k ∉ (c'.data.filter (fun p => p.2.Expired t)).map Prod.fst := by
        intro hin
        rcases List.mem_map.mp hin with ⟨q, hq, hqk⟩
        have hm := (List.mem_filter.mp hq).1
        have he := (List.mem_filter.mp hq).2
        rw [h2 q hm hqk, hexp0 t] at he
        exact Bool.false_ne_true he
      apply ih
      · simp only [cleanupSweep]
        rw [lookup_foldl_eraseKey _ _ _ hknot]
        exact h1
      · intro q hq hqk
        exact h2 q (mem_foldl_eraseKey _ _ _ (by simpa [cleanupSweep] using hq)) hqk
  have hbase1 : lookup (SetWithTTL c k v 0 now).data k = some ⟨v, 0⟩ := by
    simp only [SetWithTTL]
    rw [show newItem v (0:Int) now = (⟨v, 0⟩ : Item T) from by unfold newItem; simp]
    exact lookup_mapInsert_self _ _ _
  have hbase2 : ∀ q ∈ (SetWithTTL c k v 0 now).data, q.1 = k →
      q.2 = (⟨v, (0:Int)⟩ : Item T) := by
    intro q hq hqk
    simp only [SetWithTTL, mapInsert] at hq
    rcases List.mem_cons.mp hq with hq | hq
    · rw [hq]
      unfold newItem
      simp
    · exfalso
      have := (List.mem_filter.mp hq).2
      rw [decide_eq_true_eq] at this
      exact this hqk
  rcases main ts _ hbase1 hbase2 with ⟨hl, _⟩
  simp only [Get]
  rw [hl]
  simp [hexp0]

end Mempot
